import Mathlib

/-!
Verification of the vaporetto predictor core (`vaporetto/src/predictor.rs`) and
the KyTea-style full-width preprocessing filters (`vaporetto_rules`).

The development shallowly embeds the Rust source: machine integers `i32` are
modelled as `Int` (the model invariant, spec section 5, guarantees all
intermediate sums fit in `i32`, so no wrap-around is modelled), vectors as
`List`, and the `unwrap` calls of `fill_tags` as an `Option` result where
`none` denotes a panic.  Code of the repository that is not under `src/`
(the scorers in `char_scorer.rs` / `type_scorer.rs`, `Sentence` internals in
`sentence.rs`, `Model` in `model.rs`) is modelled from the spec, as marked on
each such definition.
-/

namespace Vaporetto

/-- Boundary labels of `sentence.rs` (modelled from the spec, section 3:
each label is one of WordBoundary, NotWordBoundary, Unknown). -/
inductive BoundaryType where
  | WordBoundary
  | NotWordBoundary
  | Unknown
deriving DecidableEq, Repr

/-- Modelled from the spec, section 3: a self-weight is a record
`start_rel_position : i32` together with a weight row of length `T`
(`sentence.rs` is not under `src/`). -/
structure SelfWeight where
  start_rel_position : Int
  weight : List Int
deriving DecidableEq, Repr

/-- Modelled from the spec, section 3: the three parallel per-position
tag-score containers of a sentence (`sentence.rs` is not under `src/`).
`left_scores` and `right_scores` are row-major `n × T` matrices stored flat;
`self_scores` has one optional self-weight list per character. -/
structure TagScores where
  left_scores : List Int
  right_scores : List Int
  self_scores : List (Option (List SelfWeight))
deriving DecidableEq, Repr

/-- Modelled from the spec, section 4.1 step 2: `tag_scores.init(n, T)`
zero-initializes both matrices with shape `n × T` and resets the
self-score slots (`sentence.rs` is not under `src/`). -/
def TagScores.init (n T : Nat) : TagScores :=
  { left_scores := List.replicate (n * T) 0
    right_scores := List.replicate (n * T) 0
    self_scores := List.replicate n none }

/-- Modelled from the spec, section 3: the sentence working buffer
(`sentence.rs` is not under `src/`).  Tags are owned shared strings,
modelled as `Option String` slots. -/
structure Sentence where
  chars : List Char
  char_types : List Nat
  boundaries : List BoundaryType
  boundary_scores : List Int
  tag_scores : TagScores
  tags : List (Option String)
deriving DecidableEq, Repr

/-- Modelled from the spec, section 3: one character n-gram entry of an
n-gram model over Unicode strings (`ngram_model.rs` is not under `src/`). -/
structure NgramDataC where
  ngram : List Char
  weights : List Int
deriving DecidableEq, Repr

/-- Modelled from the spec, section 3: one n-gram entry of an n-gram model
over class-code byte strings (`ngram_model.rs` is not under `src/`). -/
structure NgramDataB where
  ngram : List Nat
  weights : List Int
deriving DecidableEq, Repr

/-- Modelled from the spec, section 3: the right/inside/left weights of one
dictionary word (`dict_model.rs` is not under `src/`). -/
structure DictWeight where
  right : Int
  inside : Int
  left : Int
deriving DecidableEq, Repr

/-- Modelled from the spec, section 3: one dictionary record
(`dict_model.rs` is not under `src/`). -/
structure WordWeightRecord where
  word : List Char
  weights : DictWeight
deriving DecidableEq, Repr

/-- Modelled from the spec, section 3: one tag class, a name and a bias
(`tag_model.rs` is not under `src/`). -/
structure TagClassInfo where
  name : String
  bias : Int
deriving DecidableEq, Repr

/-- Modelled from the spec, section 3: the optional tag model
(`tag_model.rs` is not under `src/`). -/
structure TagModel where
  class_info : List TagClassInfo
  left_char_model : List NgramDataC
  right_char_model : List NgramDataC
  self_char_model : List NgramDataC
deriving DecidableEq, Repr

/-- Modelled from the spec, section 3: the model consumed by
`Predictor::new` (`model.rs` is not under `src/`). -/
structure Model where
  char_ngram_model : List NgramDataC
  type_ngram_model : List NgramDataB
  dict_model : List WordWeightRecord
  bias : Int
  char_window_size : Nat
  type_window_size : Nat
  tag_model : TagModel
deriving DecidableEq, Repr

/-- Modelled from the spec, sections 2 and 4.2: the construction data of the
plain character scorer (`char_scorer.rs` is not under `src/`); its
`add_scores` behavior is kept abstract and is passed to `predict_impl` as a
parameter.  The fallibility of `CharScorer::new` (InvalidModel) lives in the
missing file and is modelled as always succeeding. -/
structure CharScorer where
  char_ngram_model : List NgramDataC
  window_size : Nat
  dict_model : List WordWeightRecord
deriving DecidableEq, Repr

/-- Modelled from the spec, sections 2 and 4.2: the construction data of the
tag-aware character scorer (`char_scorer.rs` is not under `src/`). -/
structure CharScorerWithTags where
  char_ngram_model : List NgramDataC
  window_size : Nat
  dict_model : List WordWeightRecord
  n_tags : Nat
  left_char_model : List NgramDataC
  right_char_model : List NgramDataC
  self_char_model : List NgramDataC
deriving DecidableEq, Repr

/-- Modelled from the spec, sections 2 and 4.3: the construction data of the
character-type scorer (`type_scorer.rs` is not under `src/`). -/
structure TypeScorer where
  type_ngram_model : List NgramDataB
  window_size : Nat
deriving DecidableEq, Repr

/-- The private enum `CharScorerWrapper` of predictor.rs. -/
inductive CharScorerWrapper where
  | Boundary (cs : CharScorer)
  | BoundaryAndTags (cs : CharScorerWithTags)
deriving DecidableEq, Repr

/-- Whether the wrapper holds the tag-aware scorer variant. -/
def CharScorerWrapper.isTags : CharScorerWrapper → Bool
  | .Boundary _ => false
  | .BoundaryAndTags _ => true

/-- The `Predictor` struct of predictor.rs. -/
structure Predictor where
  bias : Int
  char_scorer : CharScorerWrapper
  type_scorer : TypeScorer
  padding : Nat
  tag_names : List String
  tag_bias : List Int
deriving DecidableEq, Repr

/-- `Predictor::new` of predictor.rs.  The scorer constructors can fail with
InvalidModel inside the missing scorer files; those failure conditions are
modelled as always succeeding, so `new` is total here.  The selection of the
scorer variant and the pushes into `tag_names` / `tag_bias` follow the
source lines 42-80 exactly: the branch is taken on `predict_tags` alone. -/
def Predictor.new (model : Model) (predict_tags : Bool) : Predictor :=
  if predict_tags then
    let tag_names := model.tag_model.class_info.map (fun c => c.name)
    let tag_bias := model.tag_model.class_info.map (fun c => c.bias)
    { bias := model.bias
      char_scorer := CharScorerWrapper.BoundaryAndTags
        { char_ngram_model := model.char_ngram_model
          window_size := model.char_window_size
          dict_model := model.dict_model
          n_tags := tag_names.length
          left_char_model := model.tag_model.left_char_model
          right_char_model := model.tag_model.right_char_model
          self_char_model := model.tag_model.self_char_model }
      type_scorer := { type_ngram_model := model.type_ngram_model
                       window_size := model.type_window_size }
      padding := model.char_window_size.max model.type_window_size
      tag_names := tag_names
      tag_bias := tag_bias }
  else
    { bias := model.bias
      char_scorer := CharScorerWrapper.Boundary
        { char_ngram_model := model.char_ngram_model
          window_size := model.char_window_size
          dict_model := model.dict_model }
      type_scorer := { type_ngram_model := model.type_ngram_model
                       window_size := model.type_window_size }
      padding := model.char_window_size.max model.type_window_size
      tag_names := []
      tag_bias := [] }

/-- The constant `char_scorer::SIMD_SIZE`.  Modelled from the spec,
section 4.1 ("an implementation constant, e.g. 16"); `char_scorer.rs` is not
under `src/`.  The theorems below only use that it is at least 1. -/
def SIMD_SIZE : Nat := 16

/-- The thresholding zip of `predict_impl` (predictor.rs lines 100-109):
positions covered by both the unpadded score slice and the boundary vector
get `WordBoundary` when the score is `>= 0`, other boundary entries are left
unchanged. -/
def thresholdBoundaries : List Int → List BoundaryType → List BoundaryType
  | y :: ys, _ :: bs =>
    (if 0 ≤ y then BoundaryType.WordBoundary else BoundaryType.NotWordBoundary)
      :: thresholdBoundaries ys bs
  | _, bs => bs

/-- Rust `Vec::rotate_left(mid)` (used at predictor.rs line 140): the slice
`[mid..]` moves to the front.  Rust requires `mid ≤ len`; the call site
guarantees it because the padded vector has length
`|boundaries| + padding + SIMD_SIZE - 1 ≥ padding`. -/
def rotateLeftL (xs : List α) (mid : Nat) : List α :=
  xs.drop mid ++ xs.take mid

/-- `predict_impl` of predictor.rs (lines 82-112), parameterized by the
`add_scores` behaviors of the three scorers, whose bodies live in
`char_scorer.rs` / `type_scorer.rs` (not under `src/`).  Per the spec
(sections 4.2, 4.3) the scorers only add weights into the vectors handed to
them; the theorems below assume exactly that they preserve the length.
The `mem::take` of the scratch fields is modelled by handing the scorers a
sentence whose scratch fields are emptied. -/
def predict_impl
    (charAdd : CharScorer → Sentence → Nat → List Int → List Int)
    (charTagAdd : CharScorerWithTags → Sentence → Nat → List Int → TagScores →
      List Int × TagScores)
    (typeAdd : TypeScorer → Sentence → List Int → List Int)
    (p : Predictor) (s : Sentence) : Sentence :=
  let ysSize := s.boundaries.length + p.padding + SIMD_SIZE - 1
  let ys0 : List Int := List.replicate ysSize p.bias
  let sMoved := { s with boundary_scores := [] }
  let step1 : List Int × Sentence :=
    match p.char_scorer with
    | CharScorerWrapper.Boundary cs => (charAdd cs sMoved p.padding ys0, sMoved)
    | CharScorerWrapper.BoundaryAndTags cs =>
      let sMoved2 := { sMoved with tag_scores := ⟨[], [], []⟩ }
      let tagYs := TagScores.init s.chars.length p.tag_names.length
      let r := charTagAdd cs sMoved2 p.padding ys0 tagYs
      (r.1, { sMoved2 with tag_scores := r.2 })
  let ys1 := step1.1
  let s1 := step1.2
  let ys2 := ys1.take p.padding ++ typeAdd p.type_scorer s1 (ys1.drop p.padding)
  { s1 with boundaries := thresholdBoundaries (ys2.drop p.padding) s1.boundaries
            boundary_scores := ys2 }

/-- `Predictor::predict` of predictor.rs (lines 123-127). -/
def predict
    (charAdd : CharScorer → Sentence → Nat → List Int → List Int)
    (charTagAdd : CharScorerWithTags → Sentence → Nat → List Int → TagScores →
      List Int × TagScores)
    (typeAdd : TypeScorer → Sentence → List Int → List Int)
    (p : Predictor) (s : Sentence) : Sentence :=
  let s1 := predict_impl charAdd charTagAdd typeAdd p s
  { s1 with boundary_scores := [] }

/-- `Predictor::predict_with_score` of predictor.rs (lines 138-143). -/
def predict_with_score
    (charAdd : CharScorer → Sentence → Nat → List Int → List Int)
    (charTagAdd : CharScorerWithTags → Sentence → Nat → List Int → TagScores →
      List Int × TagScores)
    (typeAdd : TypeScorer → Sentence → List Int → List Int)
    (p : Predictor) (s : Sentence) : Sentence :=
  let s1 := predict_impl charAdd charTagAdd typeAdd p s
  { s1 with boundary_scores :=
      (rotateLeftL s1.boundary_scores p.padding).take s1.boundaries.length }

/-- Structural worker for `listChunks`: the fuel is an upper bound on the
number of chunks still to be produced (each step consumes at least one
element, so the input length suffices). -/
def chunksFuel (k : Nat) : Nat → List α → List (List α)
  | 0, _ => []
  | _ + 1, [] => []
  | fuel + 1, x :: rest =>
    (x :: rest.take (k - 1)) :: chunksFuel k fuel (rest.drop (k - 1))

/-- Rust slice `chunks(k)` (predictor.rs lines 178 and 182): consecutive
chunks of length `k`, the last possibly shorter.  The call sites guarantee
`k = n_tags ≥ 1` (Rust `chunks(0)` panics). -/
def listChunks (k : Nat) (xs : List α) : List (List α) :=
  chunksFuel k xs.length xs

theorem chunksFuel_congr (k : Nat) : (f : Nat) → (xs : List α) → xs.length ≤ f →
    chunksFuel k f xs = chunksFuel k xs.length xs
  | 0, xs, h => by
    have hx : xs = [] := List.length_eq_zero.mp (Nat.le_zero.mp h)
    subst hx
    rfl
  | _ + 1, [], _ => rfl
  | f + 1, x :: rest, h => by
    have hrest : rest.length ≤ f := by simpa using h
    simp only [chunksFuel, List.length_cons]
    congr 1
    rw [chunksFuel_congr k f (rest.drop (k - 1))
      (by simp only [List.length_drop]; omega)]
    rw [chunksFuel_congr k rest.length (rest.drop (k - 1))
      (by simp only [List.length_drop]; omega)]
termination_by f => f

/-- The in-place additive zip `for (t, r) in ts.iter_mut().zip(rs) { *t += *r }`
used throughout `fill_tags`: entries of `ts` beyond `rs` are unchanged. -/
def addVec : List Int → List Int → List Int
  | t :: ts, r :: rs => (t + r) :: addVec ts rs
  | ts, _ => ts

/-- The accumulator reset of `fill_tags` (predictor.rs lines 213-218):
`*t = *l + *b` over the zip of the accumulator with `left` and `tag_bias`;
accumulator entries beyond the shorter of the two are unchanged. -/
def resetVec : List Int → List Int → List Int → List Int
  | _ :: ts, l :: ls, b :: bs => (l + b) :: resetVec ts ls bs
  | ts, _, _ => ts

/-- The self-weight scan of `fill_tags` (predictor.rs lines 199-210 and
227-238): entries with `start_rel_position > diff` are skipped; the first
other entry stops the scan, adding its weight exactly when
`start_rel_position == diff`. -/
def scanSelfWeights (diff : Int) : List SelfWeight → List Int → List Int
  | [], acc => acc
  | w :: ws, acc =>
    if diff < w.start_rel_position then scanSelfWeights diff ws acc
    else if w.start_rel_position = diff then addVec acc w.weight
    else acc

/-- `Predictor::best_tag` of predictor.rs (lines 145-154).  Rust
`Iterator::max_by_key` returns the LAST of several equally maximal elements,
so ties go to the later pair; the `unwrap` panics (modelled as `none`) when
the zip of the scores with `tag_names` is empty. -/
def best_tag (p : Predictor) (scores : List Int) : Option String :=
  match scores.zip p.tag_names with
  | [] => none
  | q :: qs => some (qs.foldl (fun acc x => if acc.1 ≤ x.1 then x else acc) q).2

/-- Rust `tags.last_mut().unwrap().replace(v)`: set the final slot.  The
call site has already handled the empty case. -/
def setLast (v : Option String) : List (Option String) → List (Option String)
  | [] => []
  | [_] => [v]
  | x :: rest => x :: setLast v rest

/-- The guarded self-weight application of `fill_tags` (predictor.rs lines
197-211 and 225-239): the scan runs only when the optional self-score slot
is populated. -/
def selfApply (diff : Int) (sf : Option (List SelfWeight)) (acc : List Int) :
    List Int :=
  match sf with
  | some ws => scanSelfWeights diff ws acc
  | none => acc

/-- The main loop of `fill_tags` (predictor.rs lines 184-221): a structural
walk of the zip of `boundaries`, the remaining left-score rows, the
right-score rows, the self-score slots and the tag slots, threaded with the
running index `i`, `last_boundary_idx` and the accumulator.  Returns the
final accumulator, the final `last_boundary_idx`, the part of the
right-score rows not consumed by the loop, and the updated tag list.
`none` records a panic of the `unwrap` inside `best_tag`.  The base cases
mirror the iterator pull order (boundaries, left, right, self, tags): a later
iterator is only advanced when every earlier one yielded. -/
def fillLoop (p : Predictor) :
    Nat → Nat → List Int → List BoundaryType → List (List Int) → List (List Int) →
    List (Option (List SelfWeight)) → List (Option String) →
    Option (List Int × Nat × List (List Int) × List (Option String))
  | i, lb, ts, b :: bs, l :: ls, r :: rs, sf :: sfs, tg :: tgs =>
    if b = BoundaryType.WordBoundary then
      match best_tag p (selfApply ((lb : Int) - (i : Int) - 1) sf (addVec ts r)) with
      | none => none
      | some tag =>
        match fillLoop p (i + 1) (i + 1)
            (resetVec (selfApply ((lb : Int) - (i : Int) - 1) sf (addVec ts r))
              l p.tag_bias) bs ls rs sfs tgs with
        | none => none
        | some (fts, flb, frs, ftgs) => some (fts, flb, frs, some tag :: ftgs)
    else
      match fillLoop p (i + 1) lb ts bs ls rs sfs tgs with
      | none => none
      | some (fts, flb, frs, ftgs) => some (fts, flb, frs, tg :: ftgs)
  | _, lb, ts, [], _, rs, _, tgs => some (ts, lb, rs, tgs)
  | _, lb, ts, _ :: _, [], rs, _, tgs => some (ts, lb, rs, tgs)
  | _, lb, ts, _ :: _, _ :: _, [], _, tgs => some (ts, lb, [], tgs)
  | _, lb, ts, _ :: _, _ :: _, _ :: rs, [], tgs => some (ts, lb, rs, tgs)
  | _, lb, ts, _ :: _, _ :: _, _ :: rs, _ :: _, [] => some (ts, lb, rs, [])

/-- `Predictor::fill_tags` of predictor.rs (lines 169-247).  The result is
`none` exactly when the Rust code panics: `left_scores_iter.next().unwrap()`
on an empty chunk iterator (line 179), the post-loop
`right_scores_iter.next().unwrap()` (line 222), the
`self_scores.last().unwrap()` (line 225), the `unwrap` inside `best_tag`,
and `tags.last_mut().unwrap()` (line 242). -/
def fill_tags (p : Predictor) (s : Sentence) : Option Sentence :=
  if p.tag_names = [] then some s else
  let tags0 := if s.tags = [] then List.replicate s.chars.length none else s.tags
  let nTags := p.tag_names.length
  match listChunks nTags s.tag_scores.left_scores with
  | [] => none
  | firstLeft :: restLeft =>
    let ts0 := addVec p.tag_bias firstLeft
    match fillLoop p 0 0 ts0 s.boundaries restLeft
        (listChunks nTags s.tag_scores.right_scores) s.tag_scores.self_scores tags0 with
    | none => none
    | some (ts1, lb, rsRem, tags1) =>
      match rsRem with
      | [] => none
      | rRow :: _ =>
        let ts2 := addVec ts1 rRow
        match s.tag_scores.self_scores.getLast? with
        | none => none
        | some sfLast =>
          let ts3 := selfApply ((lb : Int) - (s.chars.length : Int)) sfLast ts2
          match best_tag p ts3 with
          | none => none
          | some tag =>
            match tags1 with
            | [] => none
            | _ :: _ => some { s with tags := setLast (some tag) tags1 }

/-- Row `i` of a flat row-major `_ × T` matrix. -/
def rowAt (flat : List Int) (T i : Nat) : List Int :=
  (flat.drop (i * T)).take T

/-- Reference form of the `fill_tags` loop written with explicit row indices
instead of iterators, following the row assignment the code actually
performs: at gap `i` with a word boundary it adds row `i` of
`right_scores`, reads `self_scores[i]`, and resets from row `i + 1` of
`left_scores`.  Recursion is on the number `m` of remaining gaps; the third
component collects the tag slots for positions `i, i+1, ...`. -/
def idxLoop (p : Predictor) (s : Sentence) (T : Nat) (tgs0 : List (Option String)) :
    Nat → Nat → Nat → List Int → List Int × Nat × List (Option String)
  | 0, _, lb, ts => (ts, lb, [])
  | m + 1, i, lb, ts =>
    if s.boundaries.getD i BoundaryType.Unknown = BoundaryType.WordBoundary then
      let ts2 := selfApply ((lb : Int) - (i : Int) - 1)
        (s.tag_scores.self_scores.getD i none)
        (addVec ts (rowAt s.tag_scores.right_scores T i))
      let rest := idxLoop p s T tgs0 m (i + 1) (i + 1)
        (resetVec ts2 (rowAt s.tag_scores.left_scores T (i + 1)) p.tag_bias)
      (rest.1, rest.2.1, best_tag p ts2 :: rest.2.2)
    else
      let rest := idxLoop p s T tgs0 m (i + 1) lb ts
      (rest.1, rest.2.1, tgs0.getD i none :: rest.2.2)

/-- Reference form of `fill_tags` with explicit row indices, exposing the row
discipline of the source: the token ending at gap `i` receives row `i` of
`right_scores`, and the final token receives row `n - 1` (the last row of
the `n × T` matrix). -/
def fillTagsIndexed (p : Predictor) (s : Sentence) : Sentence :=
  if p.tag_names = [] then s else
  let n := s.chars.length
  let T := p.tag_names.length
  let tags0 := if s.tags = [] then List.replicate n none else s.tags
  let ts0 := addVec p.tag_bias (rowAt s.tag_scores.left_scores T 0)
  let r := idxLoop p s T tags0 (n - 1) 0 0 ts0
  let ts2 := addVec r.1 (rowAt s.tag_scores.right_scores T (n - 1))
  let ts3 := selfApply ((r.2.1 : Int) - (n : Int)) (s.tag_scores.self_scores.getD (n - 1) none) ts2
  { s with tags := r.2.2 ++ [best_tag p ts3] }

/-! Basic lemmas about the helper operations. -/

theorem addVec_length (ts rs : List Int) : (addVec ts rs).length = ts.length := by
  induction ts generalizing rs with
  | nil => cases rs <;> simp [addVec]
  | cons t ts ih => cases rs <;> simp [addVec, ih]

theorem resetVec_length (ts ls bs : List Int) :
    (resetVec ts ls bs).length = ts.length := by
  induction ts generalizing ls bs with
  | nil => cases ls <;> cases bs <;> simp [resetVec]
  | cons t ts ih =>
    cases ls with
    | nil => simp [resetVec]
    | cons l ls => cases bs <;> simp [resetVec, ih]

theorem scanSelfWeights_length (d : Int) (ws : List SelfWeight) (acc : List Int) :
    (scanSelfWeights d ws acc).length = acc.length := by
  induction ws with
  | nil => simp [scanSelfWeights]
  | cons w ws ih =>
    simp only [scanSelfWeights]
    split
    · exact ih
    · split
      · exact addVec_length acc w.weight
      · rfl

theorem thresholdBoundaries_length (ys : List Int) (bs : List BoundaryType) :
    (thresholdBoundaries ys bs).length = bs.length := by
  induction ys generalizing bs with
  | nil => cases bs <;> simp [thresholdBoundaries]
  | cons y ys ih => cases bs <;> simp [thresholdBoundaries, ih]

theorem thresholdBoundaries_getD (ys : List Int) (bs : List BoundaryType) (i : Nat)
    (hb : i < bs.length) (hy : i < ys.length) :
    (thresholdBoundaries ys bs).getD i BoundaryType.Unknown =
      if 0 ≤ ys.getD i 0 then BoundaryType.WordBoundary
      else BoundaryType.NotWordBoundary := by
  induction i generalizing ys bs with
  | zero =>
    cases ys with
    | nil => simp at hy
    | cons y ys =>
      cases bs with
      | nil => simp at hb
      | cons b bs => simp [thresholdBoundaries, List.getD]
  | succ i ih =>
    cases ys with
    | nil => simp at hy
    | cons y ys =>
      cases bs with
      | nil => simp at hb
      | cons b bs =>
        simp only [thresholdBoundaries, List.getD_cons_succ]
        exact ih ys bs (by simpa using hb) (by simpa using hy)

theorem getD_drop (xs : List Int) (k i : Nat) :
    (xs.drop k).getD i 0 = xs.getD (k + i) 0 := by
  simp [List.getD_eq_getElem?_getD, List.getElem?_drop]

/-! Facts about `predict_impl`, `predict` and `predict_with_score`. -/

theorem predict_impl_boundaries
    (charAdd : CharScorer → Sentence → Nat → List Int → List Int)
    (charTagAdd : CharScorerWithTags → Sentence → Nat → List Int → TagScores →
      List Int × TagScores)
    (typeAdd : TypeScorer → Sentence → List Int → List Int)
    (p : Predictor) (s : Sentence) :
    (predict_impl charAdd charTagAdd typeAdd p s).boundaries =
      thresholdBoundaries
        ((predict_impl charAdd charTagAdd typeAdd p s).boundary_scores.drop p.padding)
        s.boundaries := by
  unfold predict_impl
  cases p.char_scorer <;> rfl

theorem predict_impl_scores_length
    (charAdd : CharScorer → Sentence → Nat → List Int → List Int)
    (charTagAdd : CharScorerWithTags → Sentence → Nat → List Int → TagScores →
      List Int × TagScores)
    (typeAdd : TypeScorer → Sentence → List Int → List Int)
    (p : Predictor) (s : Sentence)
    (hChar : ∀ cs s1 pad ys, (charAdd cs s1 pad ys).length = ys.length)
    (hCharT : ∀ cs s1 pad ys t, (charTagAdd cs s1 pad ys t).1.length = ys.length)
    (hType : ∀ tsc s1 ys, (typeAdd tsc s1 ys).length = ys.length) :
    (predict_impl charAdd charTagAdd typeAdd p s).boundary_scores.length =
      s.boundaries.length + p.padding + SIMD_SIZE - 1 := by
  unfold predict_impl
  cases hcs : p.char_scorer with
  | Boundary cs =>
    simp only [List.length_append, List.length_take, hType, List.length_drop, hChar,
      List.length_replicate]
    omega
  | BoundaryAndTags cs =>
    simp only [List.length_append, List.length_take, hType, List.length_drop, hCharT,
      List.length_replicate]
    omega

theorem predict_boundaries
    (charAdd : CharScorer → Sentence → Nat → List Int → List Int)
    (charTagAdd : CharScorerWithTags → Sentence → Nat → List Int → TagScores →
      List Int × TagScores)
    (typeAdd : TypeScorer → Sentence → List Int → List Int)
    (p : Predictor) (s : Sentence) :
    (predict charAdd charTagAdd typeAdd p s).boundaries =
      (predict_impl charAdd charTagAdd typeAdd p s).boundaries := rfl

theorem predict_with_score_boundaries
    (charAdd : CharScorer → Sentence → Nat → List Int → List Int)
    (charTagAdd : CharScorerWithTags → Sentence → Nat → List Int → TagScores →
      List Int × TagScores)
    (typeAdd : TypeScorer → Sentence → List Int → List Int)
    (p : Predictor) (s : Sentence) :
    (predict_with_score charAdd charTagAdd typeAdd p s).boundaries =
      (predict_impl charAdd charTagAdd typeAdd p s).boundaries := rfl

/-- C1: for every predicted sentence and every gap `i` in `0..n-1`, the
boundary label written by `predict` / `predict_with_score` is `WordBoundary`
if and only if the accumulated score for gap `i` (the padded score-vector
entry `ys[padding + i]`) is `>= 0`; in particular a score of exactly zero is
classified as `WordBoundary`.  The scorer `add_scores` bodies live outside
`src/` and are quantified here as arbitrary length-preserving behaviors. -/
theorem claim1_thresholding
    (charAdd : CharScorer → Sentence → Nat → List Int → List Int)
    (charTagAdd : CharScorerWithTags → Sentence → Nat → List Int → TagScores →
      List Int × TagScores)
    (typeAdd : TypeScorer → Sentence → List Int → List Int)
    (p : Predictor) (s : Sentence)
    (hChar : ∀ cs s1 pad ys, (charAdd cs s1 pad ys).length = ys.length)
    (hCharT : ∀ cs s1 pad ys t, (charTagAdd cs s1 pad ys t).1.length = ys.length)
    (hType : ∀ tsc s1 ys, (typeAdd tsc s1 ys).length = ys.length)
    (i : Nat) (hi : i < s.boundaries.length) :
    ((predict charAdd charTagAdd typeAdd p s).boundaries.getD i BoundaryType.Unknown =
        BoundaryType.WordBoundary ↔
      0 ≤ (predict_impl charAdd charTagAdd typeAdd p s).boundary_scores.getD
        (p.padding + i) 0) ∧
    ((predict_with_score charAdd charTagAdd typeAdd p s).boundaries.getD i
        BoundaryType.Unknown = BoundaryType.WordBoundary ↔
      0 ≤ (predict_impl charAdd charTagAdd typeAdd p s).boundary_scores.getD
        (p.padding + i) 0) := by
  have hb := predict_impl_boundaries charAdd charTagAdd typeAdd p s
  have hl := predict_impl_scores_length charAdd charTagAdd typeAdd p s hChar hCharT hType
  have hS : SIMD_SIZE = 16 := rfl
  have hdl :
      i < ((predict_impl charAdd charTagAdd typeAdd p s).boundary_scores.drop
        p.padding).length := by
    rw [List.length_drop, hl]
    omega
  have key : (predict_impl charAdd charTagAdd typeAdd p s).boundaries.getD i
      BoundaryType.Unknown =
      if 0 ≤ (predict_impl charAdd charTagAdd typeAdd p s).boundary_scores.getD
          (p.padding + i) 0 then BoundaryType.WordBoundary
        else BoundaryType.NotWordBoundary := by
    rw [hb, thresholdBoundaries_getD _ _ i hi hdl, getD_drop]
  have iffh : ∀ x : Int,
      ((if 0 ≤ x then BoundaryType.WordBoundary else BoundaryType.NotWordBoundary) =
        BoundaryType.WordBoundary) ↔ 0 ≤ x := by
    intro x
    split <;> simp_all
  refine ⟨?_, ?_⟩
  · rw [predict_boundaries, key]
    exact iffh _
  · rw [predict_with_score_boundaries, key]
    exact iffh _

/-- Identity character-scorer behavior, used in witnesses. -/
def idCharAdd : CharScorer → Sentence → Nat → List Int → List Int :=
  fun _ _ _ ys => ys

/-- Identity tag-aware character-scorer behavior, used in witnesses. -/
def idCharTagAdd :
    CharScorerWithTags → Sentence → Nat → List Int → TagScores →
      List Int × TagScores :=
  fun _ _ _ ys t => (ys, t)

/-- Identity type-scorer behavior, used in witnesses. -/
def idTypeAdd : TypeScorer → Sentence → List Int → List Int :=
  fun _ _ ys => ys

/-- A minimal model with no patterns, bias 1 and window sizes 0. -/
def modelW : Model :=
  ⟨[], [], [], 1, 0, 0, ⟨[], [], [], []⟩⟩

/-- The predictor built from `modelW` without tag prediction. -/
def pW : Predictor := Predictor.new modelW false

/-- A two-character sentence with one undecided gap. -/
def sW : Sentence :=
  ⟨['a', 'b'], [0, 0], [BoundaryType.Unknown], [], ⟨[], [], []⟩, []⟩

/-- Witness for C1 at a concrete predictor, sentence and gap. -/
theorem claim1_witness :
    ((predict idCharAdd idCharTagAdd idTypeAdd pW sW).boundaries.getD 0
        BoundaryType.Unknown = BoundaryType.WordBoundary ↔
      0 ≤ (predict_impl idCharAdd idCharTagAdd idTypeAdd pW sW).boundary_scores.getD
        (pW.padding + 0) 0) ∧
    ((predict_with_score idCharAdd idCharTagAdd idTypeAdd pW sW).boundaries.getD 0
        BoundaryType.Unknown = BoundaryType.WordBoundary ↔
      0 ≤ (predict_impl idCharAdd idCharTagAdd idTypeAdd pW sW).boundary_scores.getD
        (pW.padding + 0) 0) :=
  claim1_thresholding idCharAdd idCharTagAdd idTypeAdd pW sW
    (fun _ _ _ _ => rfl) (fun _ _ _ _ _ => rfl) (fun _ _ _ => rfl) 0 (by decide)

/-- C2: for every non-empty sentence with `|boundaries| = n - 1`, after
`predict_with_score` the field `boundary_scores` has length exactly `n - 1`
and entry `i` holds the score of gap `i` (the padded vector rotated left by
`padding` and truncated to `n - 1`), while after `predict` the field
`boundary_scores` is empty. -/
theorem claim2_score_layout
    (charAdd : CharScorer → Sentence → Nat → List Int → List Int)
    (charTagAdd : CharScorerWithTags → Sentence → Nat → List Int → TagScores →
      List Int × TagScores)
    (typeAdd : TypeScorer → Sentence → List Int → List Int)
    (p : Predictor) (s : Sentence)
    (hChar : ∀ cs s1 pad ys, (charAdd cs s1 pad ys).length = ys.length)
    (hCharT : ∀ cs s1 pad ys t, (charTagAdd cs s1 pad ys t).1.length = ys.length)
    (hType : ∀ tsc s1 ys, (typeAdd tsc s1 ys).length = ys.length)
    (hn : s.chars.length = s.boundaries.length + 1) :
    (predict_with_score charAdd charTagAdd typeAdd p s).boundary_scores.length =
      s.chars.length - 1 ∧
    (∀ i, i < s.chars.length - 1 →
      (predict_with_score charAdd charTagAdd typeAdd p s).boundary_scores.getD i 0 =
        (predict_impl charAdd charTagAdd typeAdd p s).boundary_scores.getD
          (p.padding + i) 0) ∧
    (predict charAdd charTagAdd typeAdd p s).boundary_scores = [] := by
  have hl := predict_impl_scores_length charAdd charTagAdd typeAdd p s hChar hCharT hType
  have hS : SIMD_SIZE = 16 := rfl
  have hbl : (predict_impl charAdd charTagAdd typeAdd p s).boundaries.length =
      s.boundaries.length := by
    rw [predict_impl_boundaries charAdd charTagAdd typeAdd p s,
      thresholdBoundaries_length]
  have hdroplen :
      s.boundaries.length ≤
        ((predict_impl charAdd charTagAdd typeAdd p s).boundary_scores.drop
          p.padding).length := by
    rw [List.length_drop, hl]
    omega
  have hscores :
      (predict_with_score charAdd charTagAdd typeAdd p s).boundary_scores =
        ((predict_impl charAdd charTagAdd typeAdd p s).boundary_scores.drop
          p.padding).take s.boundaries.length := by
    show ((rotateLeftL (predict_impl charAdd charTagAdd typeAdd p s).boundary_scores
        p.padding).take
          (predict_impl charAdd charTagAdd typeAdd p s).boundaries.length) = _
    rw [hbl, rotateLeftL, List.take_append_of_le_length hdroplen]
  refine ⟨?_, ?_, rfl⟩
  · rw [hscores, List.length_take, List.length_drop, hl]
    omega
  · intro i hi
    have hib : i < s.boundaries.length := by omega
    rw [hscores, List.getD_eq_getElem?_getD, List.getElem?_take, if_pos hib,
      ← List.getD_eq_getElem?_getD, getD_drop]

/-- Witness for C2 at a concrete predictor and sentence. -/
theorem claim2_witness :
    (predict_with_score idCharAdd idCharTagAdd idTypeAdd pW sW).boundary_scores.length =
      sW.chars.length - 1 ∧
    (∀ i, i < sW.chars.length - 1 →
      (predict_with_score idCharAdd idCharTagAdd idTypeAdd pW sW).boundary_scores.getD
          i 0 =
        (predict_impl idCharAdd idCharTagAdd idTypeAdd pW sW).boundary_scores.getD
          (pW.padding + i) 0) ∧
    (predict idCharAdd idCharTagAdd idTypeAdd pW sW).boundary_scores = [] :=
  claim2_score_layout idCharAdd idCharTagAdd idTypeAdd pW sW
    (fun _ _ _ _ => rfl) (fun _ _ _ _ _ => rfl) (fun _ _ _ => rfl) (by decide)

/-- Input refuting C3: a model whose tag model has an empty class list. -/
def modelC3 : Model :=
  ⟨[], [], [], 0, 1, 1, ⟨[], [], [], []⟩⟩

/-- C3 counterexample: the claim states that with `predict_tags = true` and
an empty `tag_model.class_info` the plain `CharScorer` is selected; the
source (predictor.rs lines 46-66) branches on `predict_tags` alone and here
constructs the tag-aware scorer. -/
theorem claim3_counterexample :
    modelC3.tag_model.class_info = [] ∧
    (Predictor.new modelC3 true).char_scorer.isTags = true :=
  ⟨rfl, rfl⟩

/-- C3 amended: `Predictor::new` selects `CharScorerWithTags` if and only if
`predict_tags` is true, regardless of whether `tag_model.class_info` is
empty (an empty class list merely yields a tag scorer with zero classes). -/
theorem claim3_amended (model : Model) (predict_tags : Bool) :
    (Predictor.new model predict_tags).char_scorer.isTags = predict_tags := by
  cases predict_tags <;> rfl

/-- C5: in the self-weight scan of `fill_tags`, at most one entry of a
self-score list is added into the accumulator, and it is selected by
`start_rel_position == diff`; moreover the scan follows exactly the
discipline "skip entries greater than `diff`, then add once on equality,
stop on anything smaller".  `fill_tags` invokes this scan with
`diff = last_boundary_idx - i - 1` at an inner gap `i` and
`diff = last_boundary_idx - n` for the final token, as visible in its
definition. -/
theorem claim5_self_weight_single_hit (diff : Int) (ws : List SelfWeight)
    (acc : List Int) :
    (scanSelfWeights diff ws acc = acc ∨
      ∃ w, w ∈ ws ∧ w.start_rel_position = diff ∧
        scanSelfWeights diff ws acc = addVec acc w.weight) ∧
    scanSelfWeights diff ws acc =
      (match ws.dropWhile (fun w => decide (diff < w.start_rel_position)) with
       | [] => acc
       | w :: _ =>
         if w.start_rel_position = diff then addVec acc w.weight else acc) := by
  induction ws with
  | nil => exact ⟨Or.inl rfl, rfl⟩
  | cons w ws ih =>
    by_cases hgt : diff < w.start_rel_position
    · have hscan : scanSelfWeights diff (w :: ws) acc = scanSelfWeights diff ws acc := by
        simp [scanSelfWeights, hgt]
      have hdrop : (w :: ws).dropWhile (fun w => decide (diff < w.start_rel_position)) =
          ws.dropWhile (fun w => decide (diff < w.start_rel_position)) := by
        simp [List.dropWhile, hgt]
      refine ⟨?_, ?_⟩
      · rcases ih.1 with h | ⟨w', hw', heq, hval⟩
        · exact Or.inl (hscan.trans h)
        · exact Or.inr ⟨w', List.mem_cons_of_mem _ hw', heq, hscan.trans hval⟩
      · rw [hscan, hdrop]
        exact ih.2
    · have hdrop : (w :: ws).dropWhile (fun w => decide (diff < w.start_rel_position)) =
          w :: ws := by
        simp [List.dropWhile, hgt]
      by_cases heq : w.start_rel_position = diff
      · have hscan : scanSelfWeights diff (w :: ws) acc = addVec acc w.weight := by
          simp [scanSelfWeights, hgt, heq]
        refine ⟨Or.inr ⟨w, List.mem_cons_self w ws, heq, hscan⟩, ?_⟩
        rw [hscan, hdrop]
        simp [heq]
      · have hscan : scanSelfWeights diff (w :: ws) acc = acc := by
          simp [scanSelfWeights, hgt, heq]
        refine ⟨Or.inl hscan, ?_⟩
        rw [hscan, hdrop]
        simp [heq]

/-- C8: if the predictor was built without tags (its `tag_names` list is
empty), `fill_tags` returns the sentence completely unmodified
(predictor.rs lines 170-172). -/
theorem claim8_fill_tags_noop (p : Predictor) (s : Sentence)
    (h : p.tag_names = []) : fill_tags p s = some s := by
  simp [fill_tags, h]

/-- Witness for C8 at a concrete tagless predictor and sentence. -/
theorem claim8_witness : fill_tags pW sW = some sW :=
  claim8_fill_tags_noop pW sW rfl

/-- Input refuting C7: a model with one tag class. -/
def modelC7 : Model :=
  ⟨[], [], [], 0, 1, 1, ⟨[⟨"A", 0⟩], [], [], []⟩⟩

/-- Input refuting C7: a one-character sentence whose tag-score matrices
have not been populated by a prior `predict` call. -/
def sC7 : Sentence :=
  ⟨['x'], [0], [], [], ⟨[], [], []⟩, []⟩

/-- C7 counterexample: a predictor successfully constructed by `new` with
tag prediction and a sentence with one character on which `fill_tags`
panics (modelled as `none`): `left_scores` is empty, so the unconditional
`left_scores_iter.next().unwrap()` at predictor.rs line 179 fails.  This
refutes the claim that `fill_tags` never fails for every such predictor and
sentence. -/
theorem claim7_counterexample :
    fill_tags (Predictor.new modelC7 true) sC7 = none := rfl

/-- Input refuting C9: a one-tag predictor. -/
def pC9 : Predictor :=
  ⟨0, CharScorerWrapper.Boundary ⟨[], 0, []⟩, ⟨[], 0⟩, 0, ["A"], [0]⟩

/-- Input refuting C9: a two-character sentence carrying a pre-existing tag
on position 0, which ends no token. -/
def sC9 : Sentence :=
  ⟨['a', 'b'], [0, 0], [BoundaryType.NotWordBoundary], [],
    ⟨[0, 0], [0, 0], [none, none]⟩, [some "X", none]⟩

/-- C9 counterexample: `fill_tags` only resizes `tags` when it is empty and
never clears stale entries, so position 0 — which neither has
`boundaries[0] == WordBoundary` nor is the last character — still carries
the non-null tag "X" after `fill_tags`, refuting the claim for arbitrary
sentences. -/
theorem claim9_counterexample :
    (fill_tags pC9 sC9).map Sentence.tags = some [some "X", some "A"] ∧
    sC9.boundaries.getD 0 BoundaryType.Unknown ≠ BoundaryType.WordBoundary ∧
    (0 : Nat) ≠ sC9.chars.length - 1 := by
  refine ⟨rfl, by decide, by decide⟩

/-- The predictor of the source's own test `test_predict_with_score_5`
(predictor.rs lines 745-830 and 1010-1071), restricted to the fields
`fill_tags` reads. -/
def pT5 : Predictor :=
  { bias := 0
    char_scorer := CharScorerWrapper.Boundary ⟨[], 2, []⟩
    type_scorer := ⟨[], 2⟩
    padding := 2
    tag_names := ["名詞", "動詞", "助詞"]
    tag_bias := [5, 3, 1] }

/-- The sentence of `test_predict_with_score_5` after `predict` and the
caller's boundary overwrite: the left/right tag-score matrices are exactly
the flat `8 × 3` matrices asserted by the test, and the self-score lists
hold, at the slot of each self-pattern match end, the record with
`start_rel_position = -|p|` and the pattern's weight row (the placement the
tag scorer must produce for the test's tag expectations to hold). -/
def sT5 : Sentence :=
  { chars := "人と人をつなぐ人".toList
    char_types := []
    boundaries := [BoundaryType.WordBoundary, BoundaryType.WordBoundary,
      BoundaryType.WordBoundary, BoundaryType.WordBoundary,
      BoundaryType.NotWordBoundary, BoundaryType.NotWordBoundary,
      BoundaryType.WordBoundary]
    boundary_scores := []
    tag_scores :=
      { left_scores := [1, 2, 3, 11, 13, 15, 10, 11, 12, 7, 8, 9,
          10, 11, 12, 13, 14, 15, 16, 17, 18, 41, 43, 45]
        right_scores := [28, 29, 30, 71, 73, 75, 77, 79, 81, 37, 38, 39,
          0, 0, 0, 0, 0, 0, 46, 47, 48, 49, 50, 51]
        self_scores := [some [⟨-1, [2, -1, -1]⟩], some [⟨-1, [0, 0, 0]⟩],
          some [⟨-1, [2, -1, -1]⟩], some [⟨-1, [0, 0, 0]⟩], none, none,
          some [⟨-3, [0, 1, 0]⟩], some [⟨-1, [2, -1, -1]⟩]] }
    tags := [] }

/-- Validation of the embedding: on the data of the source's test
`test_predict_with_score_5`, `fill_tags` assigns exactly the tags the test
asserts (名詞 to each 人 token, 助詞 to と and を, 動詞 to つなぐ). -/
theorem fill_tags_matches_repository_test5 :
    (fill_tags pT5 sT5).map Sentence.tags =
      some [some "名詞", some "助詞", some "名詞", some "助詞", none, none,
        some "動詞", some "名詞"] := rfl

/-- Input refuting C4: a two-tag predictor whose scores will tie. -/
def pC4 : Predictor :=
  ⟨0, CharScorerWrapper.Boundary ⟨[], 0, []⟩, ⟨[], 0⟩, 0, ["A", "B"], [0, 0]⟩

/-- Input refuting C4: a one-character sentence with fully symmetric
(all-zero) tag scores, so every tag index is maximal. -/
def sC4 : Sentence :=
  ⟨['x'], [0], [], [], ⟨[0, 0], [0, 0], [none]⟩, []⟩

/-- C4 counterexample: on fully symmetric scores every tag index attains
the maximum, so the claimed lowest-index rule would pick tag "A" (index 0);
`fill_tags` picks "B" (index 1), because Rust `max_by_key` returns the last
maximal element. -/
theorem claim4_counterexample :
    (fill_tags pC4 sC4).map Sentence.tags = some [some "B"] ∧ "B" ≠ "A" :=
  ⟨rfl, by decide⟩

theorem foldl_max_by_key_last (q : Int × String) (qs : List (Int × String)) :
    ∃ j, j < (q :: qs).length ∧
      qs.foldl (fun acc x => if acc.1 ≤ x.1 then x else acc) q =
        (q :: qs).getD j (0, "") ∧
      (∀ k, k < (q :: qs).length →
        ((q :: qs).getD k (0, "")).1 ≤ ((q :: qs).getD j (0, "")).1) ∧
      (∀ k, j < k → k < (q :: qs).length →
        ((q :: qs).getD k (0, "")).1 < ((q :: qs).getD j (0, "")).1) := by
  induction qs using List.reverseRecOn with
  | nil =>
    refine ⟨0, by simp, rfl, ?_, ?_⟩
    · intro k hk
      simp only [List.length_cons, List.length_nil] at hk
      have : k = 0 := by omega
      subst this
      exact le_refl _
    · intro k hk hk'
      simp at hk'
      omega
  | append_singleton qs a ih =>
    obtain ⟨j, hj, hfold, hmax, hlast⟩ := ih
    have hcons : q :: (qs ++ [a]) = (q :: qs) ++ [a] := rfl
    have hlen : (q :: (qs ++ [a])).length = (q :: qs).length + 1 := by simp
    have hfold2 : (qs ++ [a]).foldl (fun acc x => if acc.1 ≤ x.1 then x else acc) q =
        if (qs.foldl (fun acc x => if acc.1 ≤ x.1 then x else acc) q).1 ≤ a.1 then a
        else qs.foldl (fun acc x => if acc.1 ≤ x.1 then x else acc) q := by
      rw [List.foldl_append]
      rfl
    have hgetD_lt : ∀ k, k < (q :: qs).length →
        (q :: (qs ++ [a])).getD k (0, "") = (q :: qs).getD k (0, "") := by
      intro k hk
      rw [hcons]
      exact List.getD_append _ _ _ _ hk
    have hgetD_last : (q :: (qs ++ [a])).getD (q :: qs).length (0, "") = a := by
      rw [hcons, List.getD_append_right _ _ _ _ (le_refl _), Nat.sub_self]
      rfl
    by_cases hcmp : (qs.foldl (fun acc x => if acc.1 ≤ x.1 then x else acc) q).1 ≤ a.1
    · refine ⟨(q :: qs).length, by omega, ?_, ?_, ?_⟩
      · rw [hfold2, if_pos hcmp, hgetD_last]
      · intro k hk
        rw [hgetD_last]
        rcases Nat.lt_or_ge k (q :: qs).length with hk' | hk'
        · rw [hgetD_lt k hk']
          calc ((q :: qs).getD k (0, "")).1 ≤ ((q :: qs).getD j (0, "")).1 := hmax k hk'
            _ = (qs.foldl (fun acc x => if acc.1 ≤ x.1 then x else acc) q).1 := by
                rw [hfold]
            _ ≤ a.1 := hcmp
        · have : k = (q :: qs).length := by rw [hlen] at hk; omega
          rw [this, hgetD_last]
      · intro k hk hk'
        rw [hlen] at hk'
        omega
    · refine ⟨j, by omega, ?_, ?_, ?_⟩
      · rw [hfold2, if_neg hcmp, hgetD_lt j hj]
        exact hfold
      · intro k hk
        rw [hgetD_lt j hj]
        rcases Nat.lt_or_ge k (q :: qs).length with hk' | hk'
        · rw [hgetD_lt k hk']
          exact hmax k hk'
        · have : k = (q :: qs).length := by rw [hlen] at hk; omega
          rw [this, hgetD_last]
          rw [hfold] at hcmp
          omega
      · intro k hk hk'
        rw [hgetD_lt j hj]
        rcases Nat.lt_or_ge k (q :: qs).length with hk'' | hk''
        · rw [hgetD_lt k hk'']
          exact hlast k hk hk''
        · have : k = (q :: qs).length := by rw [hlen] at hk'; omega
          rw [this, hgetD_last]
          rw [hfold] at hcmp
          omega

theorem zip_getD_fst : ∀ (xs : List Int) (ys : List String) (k : Nat),
    k < (xs.zip ys).length → ((xs.zip ys).getD k (0, "")).1 = xs.getD k 0
  | [], _, _, h => by simp at h
  | _ :: _, [], _, h => by simp at h
  | x :: xs, y :: ys, 0, _ => rfl
  | x :: xs, y :: ys, k + 1, h =>
    zip_getD_fst xs ys k (by simpa using h)

theorem zip_getD_snd : ∀ (xs : List Int) (ys : List String) (k : Nat),
    k < (xs.zip ys).length → ((xs.zip ys).getD k (0, "")).2 = ys.getD k ""
  | [], _, _, h => by simp at h
  | _ :: _, [], _, h => by simp at h
  | x :: xs, y :: ys, 0, _ => rfl
  | x :: xs, y :: ys, k + 1, h =>
    zip_getD_snd xs ys k (by simpa using h)

/-- C4 amended: the tag chosen by `best_tag` — the tag-selection function of
`fill_tags` — is the maximal-score tag at the HIGHEST (latest) index among
the maxima: its score is at least every other score, and strictly greater
than every score at a larger index (Rust `max_by_key` returns the last of
several equally maximal elements). -/
theorem claim4_amended_last_argmax (p : Predictor) (scores : List Int)
    (hlen : scores.length = p.tag_names.length) (hne : scores ≠ []) :
    ∃ j, j < scores.length ∧
      best_tag p scores = some (p.tag_names.getD j "") ∧
      (∀ k, k < scores.length → scores.getD k 0 ≤ scores.getD j 0) ∧
      (∀ k, j < k → k < scores.length → scores.getD k 0 < scores.getD j 0) := by
  have hzlen : (scores.zip p.tag_names).length = scores.length := by
    rw [List.length_zip, hlen, Nat.min_self]
  cases hz : scores.zip p.tag_names with
  | nil =>
    exfalso
    rw [hz] at hzlen
    exact hne (List.length_eq_zero.mp hzlen.symm)
  | cons q qs =>
    obtain ⟨j, hj, hfold, hmax, hlast⟩ := foldl_max_by_key_last q qs
    have hqq : q :: qs = scores.zip p.tag_names := hz.symm
    rw [hqq] at hj hfold hmax hlast
    rw [hzlen] at hj
    refine ⟨j, hj, ?_, ?_, ?_⟩
    · simp only [best_tag, hz]
      rw [hfold, zip_getD_snd scores p.tag_names j (by rw [hzlen]; exact hj)]
    · intro k hk
      have h1 := hmax k (by rw [hzlen]; exact hk)
      rwa [zip_getD_fst scores p.tag_names k (by rw [hzlen]; exact hk),
        zip_getD_fst scores p.tag_names j (by rw [hzlen]; exact hj)] at h1
    · intro k hjk hk
      have h1 := hlast k hjk (by rw [hzlen]; exact hk)
      rwa [zip_getD_fst scores p.tag_names k (by rw [hzlen]; exact hk),
        zip_getD_fst scores p.tag_names j (by rw [hzlen]; exact hj)] at h1

/-- Witness for the amended C4 at a concrete tied score vector. -/
theorem claim4_witness :
    ∃ j, j < ([0, 0] : List Int).length ∧
      best_tag pC4 [0, 0] = some (pC4.tag_names.getD j "") ∧
      (∀ k, k < ([0, 0] : List Int).length →
        ([0, 0] : List Int).getD k 0 ≤ ([0, 0] : List Int).getD j 0) ∧
      (∀ k, j < k → k < ([0, 0] : List Int).length →
        ([0, 0] : List Int).getD k 0 < ([0, 0] : List Int).getD j 0) :=
  claim4_amended_last_argmax pC4 [0, 0] rfl (by decide)

/-! Lemmas for relating the iterator-based `fill_tags` to the indexed
reference `fillTagsIndexed`. -/

theorem listChunks_eq_cons (k : Nat) (hk : 1 ≤ k) (xs : List α) (hxs : xs ≠ []) :
    listChunks k xs = xs.take k :: listChunks k (xs.drop k) := by
  cases xs with
  | nil => exact absurd rfl hxs
  | cons x rest =>
    obtain ⟨m, rfl⟩ : ∃ m, k = m + 1 := ⟨k - 1, by omega⟩
    simp only [listChunks, List.length_cons, chunksFuel, Nat.add_sub_cancel,
      List.take_succ_cons, List.drop_succ_cons]
    congr 1
    exact chunksFuel_congr (m + 1) rest.length (rest.drop m)
      (by simp only [List.length_drop]; omega)

theorem listChunks_full_length (k : Nat) (hk : 1 ≤ k) :
    ∀ (n : Nat) (xs : List α), xs.length = n * k → (listChunks k xs).length = n := by
  intro n
  induction n with
  | zero =>
    intro xs hxs
    have hx : xs = [] := List.length_eq_zero.mp (by omega)
    subst hx
    rfl
  | succ n ih =>
    intro xs hxs
    have hne : xs ≠ [] := by
      intro h
      subst h
      simp only [List.length_nil] at hxs
      rw [Nat.succ_mul] at hxs
      omega
    rw [listChunks_eq_cons k hk xs hne]
    simp only [List.length_cons]
    rw [ih (xs.drop k) (by rw [List.length_drop, hxs, Nat.succ_mul]; omega)]

theorem listChunks_drop_eq_cons (k : Nat) (hk : 1 ≤ k) (X : List Int) (n i : Nat)
    (hX : X.length = n * k) (hi : i < n) :
    listChunks k (X.drop (i * k)) =
      rowAt X k i :: listChunks k (X.drop ((i + 1) * k)) := by
  have hik : (i + 1) * k ≤ n * k := Nat.mul_le_mul_right k (Nat.succ_le_of_lt hi)
  have hik2 : (i + 1) * k = i * k + k := Nat.succ_mul i k
  have hlen : (X.drop (i * k)).length = n * k - i * k := by
    rw [List.length_drop, hX]
  have hne : X.drop (i * k) ≠ [] := by
    intro h
    rw [h] at hlen
    simp only [List.length_nil] at hlen
    omega
  rw [listChunks_eq_cons k hk _ hne]
  congr 1
  rw [List.drop_drop, Nat.succ_mul i k]

theorem best_tag_isSome (p : Predictor) (scores : List Int) (h1 : scores ≠ [])
    (h2 : p.tag_names ≠ []) : ∃ t, best_tag p scores = some t := by
  cases scores with
  | nil => exact absurd rfl h1
  | cons a as =>
    cases hn : p.tag_names with
    | nil => exact absurd hn h2
    | cons b bs =>
      have hz : (a :: as).zip p.tag_names = (a, b) :: as.zip bs := by
        rw [hn]
        rfl
      have hbt : best_tag p (a :: as) =
          some ((as.zip bs).foldl (fun acc x => if acc.1 ≤ x.1 then x else acc)
            (a, b)).2 := by
        simp only [best_tag, hz]
      exact ⟨_, hbt⟩

theorem fillLoop_nil_bs (p : Predictor) (i lb : Nat) (ts : List Int)
    (ls rs : List (List Int)) (sfs : List (Option (List SelfWeight)))
    (tgs : List (Option String)) :
    fillLoop p i lb ts [] ls rs sfs tgs = some (ts, lb, rs, tgs) := by
  cases ls <;> cases rs <;> cases sfs <;> cases tgs <;> rfl

theorem fillLoop_cons_eq (p : Predictor) (i lb : Nat) (ts : List Int)
    (b : BoundaryType) (bs : List BoundaryType) (l : List Int)
    (ls : List (List Int)) (r : List Int) (rs : List (List Int))
    (sf : Option (List SelfWeight)) (sfs : List (Option (List SelfWeight)))
    (tg : Option String) (tgs : List (Option String)) :
    fillLoop p i lb ts (b :: bs) (l :: ls) (r :: rs) (sf :: sfs) (tg :: tgs) =
      if b = BoundaryType.WordBoundary then
        match best_tag p (selfApply ((lb : Int) - (i : Int) - 1) sf (addVec ts r)) with
        | none => none
        | some tag =>
          match fillLoop p (i + 1) (i + 1)
              (resetVec (selfApply ((lb : Int) - (i : Int) - 1) sf (addVec ts r))
                l p.tag_bias) bs ls rs sfs tgs with
          | none => none
          | some (fts, flb, frs, ftgs) => some (fts, flb, frs, some tag :: ftgs)
      else
        match fillLoop p (i + 1) lb ts bs ls rs sfs tgs with
        | none => none
        | some (fts, flb, frs, ftgs) => some (fts, flb, frs, tg :: ftgs) := rfl

theorem selfApply_length (d : Int) (o : Option (List SelfWeight)) (ts1 : List Int) :
    (selfApply d o ts1).length = ts1.length := by
  cases o with
  | none => rfl
  | some ws => exact scanSelfWeights_length d ws ts1

theorem idxLoop_acc_length (p : Predictor) (s : Sentence) (T : Nat)
    (tgs0 : List (Option String)) :
    ∀ (m i lb : Nat) (ts : List Int),
      (idxLoop p s T tgs0 m i lb ts).1.length = ts.length := by
  intro m
  induction m with
  | zero => intro i lb ts; rfl
  | succ m ih =>
    intro i lb ts
    by_cases hb : s.boundaries.getD i BoundaryType.Unknown = BoundaryType.WordBoundary
    · simp only [idxLoop, if_pos hb]
      rw [ih]
      rw [resetVec_length, selfApply_length, addVec_length]
    · simp only [idxLoop, if_neg hb]
      exact ih _ _ _

theorem idxLoop_tags_length (p : Predictor) (s : Sentence) (T : Nat)
    (tgs0 : List (Option String)) :
    ∀ (m i lb : Nat) (ts : List Int),
      (idxLoop p s T tgs0 m i lb ts).2.2.length = m := by
  intro m
  induction m with
  | zero => intro i lb ts; rfl
  | succ m ih =>
    intro i lb ts
    by_cases hb : s.boundaries.getD i BoundaryType.Unknown = BoundaryType.WordBoundary
    · simp only [idxLoop, if_pos hb, List.length_cons]
      rw [ih]
    · simp only [idxLoop, if_neg hb, List.length_cons]
      rw [ih]

theorem fillLoop_eq_idxLoop (p : Predictor) (s : Sentence) (tgs0 : List (Option String))
    (hnames : p.tag_names ≠ []) (hbias : p.tag_bias.length = p.tag_names.length)
    (hB : s.boundaries.length + 1 = s.chars.length)
    (hL : s.tag_scores.left_scores.length = s.chars.length * p.tag_names.length)
    (hR : s.tag_scores.right_scores.length = s.chars.length * p.tag_names.length)
    (hSF : s.tag_scores.self_scores.length = s.chars.length)
    (htgs0 : tgs0.length = s.chars.length) :
    ∀ (m i lb : Nat) (ts : List Int), i + m = s.boundaries.length →
      ts.length = p.tag_bias.length →
      fillLoop p i lb ts (s.boundaries.drop i)
        (listChunks p.tag_names.length
          (s.tag_scores.left_scores.drop ((i + 1) * p.tag_names.length)))
        (listChunks p.tag_names.length
          (s.tag_scores.right_scores.drop (i * p.tag_names.length)))
        (s.tag_scores.self_scores.drop i) (tgs0.drop i) =
      some ((idxLoop p s p.tag_names.length tgs0 m i lb ts).1,
        (idxLoop p s p.tag_names.length tgs0 m i lb ts).2.1,
        listChunks p.tag_names.length
          (s.tag_scores.right_scores.drop ((i + m) * p.tag_names.length)),
        (idxLoop p s p.tag_names.length tgs0 m i lb ts).2.2 ++ tgs0.drop (i + m)) := by
  have hT : 1 ≤ p.tag_names.length := List.length_pos.mpr hnames
  intro m
  induction m with
  | zero =>
    intro i lb ts hi hts
    have hdropB : s.boundaries.drop i = [] := List.drop_eq_nil_of_le (by omega)
    rw [hdropB, fillLoop_nil_bs]
    simp only [idxLoop, Nat.add_zero, List.nil_append]
  | succ m ih =>
    intro i lb ts hi hts
    have hiB : i < s.boundaries.length := by omega
    have hin : i < s.chars.length := by omega
    have hi1n : i + 1 < s.chars.length := by omega
    have hiSF : i < s.tag_scores.self_scores.length := by omega
    have hiT : i < tgs0.length := by omega
    have hgetB : s.boundaries.getD i BoundaryType.Unknown = s.boundaries[i] :=
      List.getD_eq_getElem s.boundaries BoundaryType.Unknown hiB
    have hgetSF : s.tag_scores.self_scores.getD i none =
        s.tag_scores.self_scores[i] :=
      List.getD_eq_getElem _ none hiSF
    have hgetT : tgs0.getD i none = tgs0[i] := List.getD_eq_getElem _ none hiT
    have hidx : i + 1 + m = i + (m + 1) := by omega
    rw [List.drop_eq_getElem_cons hiB, List.drop_eq_getElem_cons hiSF,
      List.drop_eq_getElem_cons hiT,
      listChunks_drop_eq_cons p.tag_names.length hT s.tag_scores.right_scores
        s.chars.length i hR hin,
      listChunks_drop_eq_cons p.tag_names.length hT s.tag_scores.left_scores
        s.chars.length (i + 1) hL hi1n,
      fillLoop_cons_eq]
    by_cases hwb : s.boundaries[i] = BoundaryType.WordBoundary
    · rw [if_pos hwb]
      have hlen2 : (selfApply ((lb : Int) - (i : Int) - 1)
          s.tag_scores.self_scores[i]
          (addVec ts (rowAt s.tag_scores.right_scores p.tag_names.length i))).length =
          p.tag_bias.length := by
        rw [selfApply_length, addVec_length, hts]
      have hne2 : selfApply ((lb : Int) - (i : Int) - 1)
          s.tag_scores.self_scores[i]
          (addVec ts (rowAt s.tag_scores.right_scores p.tag_names.length i)) ≠ [] := by
        apply List.ne_nil_of_length_pos
        rw [hlen2, hbias]
        exact List.length_pos.mpr hnames
      obtain ⟨t, ht⟩ := best_tag_isSome p _ hne2 hnames
      rw [ht]
      rw [ih (i + 1) (i + 1) _ (by omega) (by rw [resetVec_length, hlen2])]
      simp only [idxLoop, hgetB, if_pos hwb, hgetSF, ht, hidx, List.cons_append]
    · rw [if_neg hwb]
      rw [ih (i + 1) lb ts (by omega) hts]
      simp only [idxLoop, hgetB, if_neg hwb, hgetT, hidx, List.cons_append]

theorem setLast_append_singleton (v x : Option String) :
    ∀ A : List (Option String), setLast v (A ++ [x]) = A ++ [v]
  | [] => rfl
  | [a] => rfl
  | a :: b :: A => by
    have ih := setLast_append_singleton v x (b :: A)
    simp only [List.cons_append] at ih ⊢
    rw [show setLast v (a :: b :: (A ++ [x])) = a :: setLast v (b :: (A ++ [x])) from rfl,
      ih]

theorem setLast_cons_append (v x a : Option String) (A : List (Option String)) :
    setLast v (a :: (A ++ [x])) = a :: (A ++ [v]) := by
  have h := setLast_append_singleton v x (a :: A)
  simpa using h

/-- Main equivalence: on a sentence whose tag-score matrices are populated
with the shapes `predict_impl` establishes (`n × T` left/right matrices,
`n` self slots, `n - 1` boundaries, and tags either empty or of length `n`),
the iterator-based `fill_tags` succeeds and agrees with the indexed
reference `fillTagsIndexed`. -/
theorem fill_tags_eq_indexed (p : Predictor) (s : Sentence)
    (hbias : p.tag_bias.length = p.tag_names.length)
    (hn : 1 ≤ s.chars.length)
    (hB : s.boundaries.length + 1 = s.chars.length)
    (hL : s.tag_scores.left_scores.length = s.chars.length * p.tag_names.length)
    (hR : s.tag_scores.right_scores.length = s.chars.length * p.tag_names.length)
    (hSF : s.tag_scores.self_scores.length = s.chars.length)
    (htags : s.tags = [] ∨ s.tags.length = s.chars.length) :
    fill_tags p s = some (fillTagsIndexed p s) := by
  by_cases hnames : p.tag_names = []
  · simp [fill_tags, fillTagsIndexed, hnames]
  · have hT : 1 ≤ p.tag_names.length := List.length_pos.mpr hnames
    have htags0len :
        (if s.tags = [] then List.replicate s.chars.length (none : Option String)
          else s.tags).length = s.chars.length := by
      by_cases h0 : s.tags = []
      · rw [if_pos h0, List.length_replicate]
      · rw [if_neg h0]
        rcases htags with h | h
        · exact absurd h h0
        · exact h
    have hLcons : listChunks p.tag_names.length s.tag_scores.left_scores =
        rowAt s.tag_scores.left_scores p.tag_names.length 0 ::
          listChunks p.tag_names.length
            (s.tag_scores.left_scores.drop p.tag_names.length) := by
      have h := listChunks_drop_eq_cons p.tag_names.length hT
        s.tag_scores.left_scores s.chars.length 0 hL (by omega)
      simpa using h
    have hmaster := fillLoop_eq_idxLoop p s
      (if s.tags = [] then List.replicate s.chars.length none else s.tags)
      hnames hbias hB hL hR hSF htags0len
      (s.chars.length - 1) 0 0
      (addVec p.tag_bias (rowAt s.tag_scores.left_scores p.tag_names.length 0))
      (by omega) (by rw [addVec_length])
    simp only [Nat.zero_add, Nat.zero_mul, List.drop_zero, one_mul] at hmaster
    have hRlast := listChunks_drop_eq_cons p.tag_names.length hT
      s.tag_scores.right_scores s.chars.length (s.chars.length - 1) hR (by omega)
    have hsfb : s.chars.length - 1 < s.tag_scores.self_scores.length := by omega
    have hgetSFlast : s.tag_scores.self_scores.getD (s.chars.length - 1) none =
        s.tag_scores.self_scores[s.chars.length - 1] :=
      List.getD_eq_getElem _ none hsfb
    have hlast : s.tag_scores.self_scores.getLast? =
        some s.tag_scores.self_scores[s.chars.length - 1] := by
      rw [List.getLast?_eq_getElem?, List.getElem?_eq_getElem (by omega)]
      congr 1
      congr 1
      omega
    have htdrop :
        (if s.tags = [] then List.replicate s.chars.length (none : Option String)
          else s.tags).drop (s.chars.length - 1) =
        [(if s.tags = [] then List.replicate s.chars.length (none : Option String)
          else s.tags).getD (s.chars.length - 1) none] := by
      rw [List.drop_eq_getElem_cons (by omega), List.drop_eq_nil_of_le (by omega),
        List.getD_eq_getElem _ none (by omega)]
    simp only [fill_tags, fillTagsIndexed, hnames, if_false, ite_false, hLcons,
      hmaster, hRlast, hlast, hgetSFlast, htdrop]
    set I := idxLoop p s p.tag_names.length
      (if s.tags = [] then List.replicate s.chars.length none else s.tags)
      (s.chars.length - 1) 0 0
      (addVec p.tag_bias (rowAt s.tag_scores.left_scores p.tag_names.length 0))
      with hI
    have hIlen : I.1.length = p.tag_bias.length := by
      rw [hI, idxLoop_acc_length, addVec_length]
    have hne3 : selfApply ((I.2.1 : Int) - (s.chars.length : Int))
        s.tag_scores.self_scores[s.chars.length - 1]
        (addVec I.1
          (rowAt s.tag_scores.right_scores p.tag_names.length
            (s.chars.length - 1))) ≠ [] := by
      apply List.ne_nil_of_length_pos
      rw [selfApply_length, addVec_length, hIlen, hbias]
      exact List.length_pos.mpr hnames
    obtain ⟨t, ht⟩ := best_tag_isSome p
      (selfApply ((I.2.1 : Int) - (s.chars.length : Int))
        s.tag_scores.self_scores[s.chars.length - 1]
        (addVec I.1
          (rowAt s.tag_scores.right_scores p.tag_names.length
            (s.chars.length - 1)))) hne3 hnames
    rw [ht]
    cases hA : I.2.2 with
    | nil => simp [setLast]
    | cons a A => simp [setLast_cons_append]

theorem best_tag_isSome_eq (p : Predictor) (scores : List Int)
    (h1 : scores ≠ []) (h2 : p.tag_names ≠ []) :
    (best_tag p scores).isSome = true := by
  obtain ⟨t, ht⟩ := best_tag_isSome p scores h1 h2
  rw [ht]
  rfl

/-- Input refuting C6: a two-tag predictor with zero biases. -/
def pC6 : Predictor :=
  ⟨0, CharScorerWrapper.Boundary ⟨[], 0, []⟩, ⟨[], 0⟩, 0, ["A", "B"], [0, 0]⟩

/-- Input refuting C6: two characters, one word boundary at gap 0, zero
left scores, right row 0 = [5, 0] and right row 1 = [0, 5]. -/
def sC6 : Sentence :=
  ⟨['a', 'b'], [0, 0], [BoundaryType.WordBoundary], [],
    ⟨[0, 0, 0, 0], [5, 0, 0, 5], [none, none]⟩, []⟩

/-- C6 counterexample: with all biases and left scores zero, the claim
(add right row `i + 1` at gap `i`) prescribes accumulator
`[0, 5]` for the token ending at gap 0 and hence tag "B", but `fill_tags`
assigns tag "A" there, because it adds right row `i` = row 0 = `[5, 0]`;
the final token then receives row `n - 1` = row 1 (a row `n` does not
exist in the `n × T` matrix). -/
theorem claim6_counterexample :
    (fill_tags pC6 sC6).map Sentence.tags = some [some "A", some "B"] ∧
    best_tag pC6
      (addVec (addVec pC6.tag_bias (rowAt sC6.tag_scores.left_scores 2 0))
        (rowAt sC6.tag_scores.right_scores 2 1)) = some "B" ∧
    some "B" ≠ some "A" := ⟨rfl, rfl, by decide⟩

/-- C6 amended: in `fill_tags`, when `boundaries[i] == WordBoundary` the row
of `right_scores` added into the accumulator for the token ending at
character `i` is row `i`, and for the final token the row added is row
`n - 1` (the last row of the `n × T` matrix): `fill_tags` coincides with
the indexed reference decoder `fillTagsIndexed`, which adds
`rowAt right_scores T i` at gap `i` and `rowAt right_scores T (n - 1)` for
the final token. -/
theorem claim6_amended_right_rows (p : Predictor) (s : Sentence)
    (hbias : p.tag_bias.length = p.tag_names.length)
    (hn : 1 ≤ s.chars.length)
    (hB : s.boundaries.length + 1 = s.chars.length)
    (hL : s.tag_scores.left_scores.length = s.chars.length * p.tag_names.length)
    (hR : s.tag_scores.right_scores.length = s.chars.length * p.tag_names.length)
    (hSF : s.tag_scores.self_scores.length = s.chars.length)
    (htags : s.tags = [] ∨ s.tags.length = s.chars.length) :
    fill_tags p s = some (fillTagsIndexed p s) :=
  fill_tags_eq_indexed p s hbias hn hB hL hR hSF htags

/-- Witness for the amended C6 on the source's test-5 data. -/
theorem claim6_witness : fill_tags pT5 sT5 = some (fillTagsIndexed pT5 sT5) :=
  claim6_amended_right_rows pT5 sT5 rfl (by decide) (by decide) (by decide)
    (by decide) (by decide) (Or.inl rfl)

/-- C7 amended: `predict` and `predict_with_score` are total, and `fill_tags`
never panics PROVIDED the sentence's tag scores are populated with the
shapes `predict_impl` establishes (left/right of shape `n × T`, `n` self
slots, `n - 1` boundaries, tags empty or of length `n`) and the predictor's
bias/name lists agree — which holds for every predictor built by `new`.
Without that proviso the claim fails (see the C7 counterexample: `fill_tags`
unwraps unconditionally). -/
theorem claim7_amended_no_panic (p : Predictor) (s : Sentence)
    (hbias : p.tag_bias.length = p.tag_names.length)
    (hn : 1 ≤ s.chars.length)
    (hB : s.boundaries.length + 1 = s.chars.length)
    (hL : s.tag_scores.left_scores.length = s.chars.length * p.tag_names.length)
    (hR : s.tag_scores.right_scores.length = s.chars.length * p.tag_names.length)
    (hSF : s.tag_scores.self_scores.length = s.chars.length)
    (htags : s.tags = [] ∨ s.tags.length = s.chars.length) :
    (fill_tags p s).isSome = true := by
  rw [fill_tags_eq_indexed p s hbias hn hB hL hR hSF htags]
  rfl

/-- Witness for the amended C7 on the source's test-5 data. -/
theorem claim7_witness : (fill_tags pT5 sT5).isSome = true :=
  claim7_amended_no_panic pT5 sT5 rfl (by decide) (by decide) (by decide)
    (by decide) (by decide) (Or.inl rfl)

theorem idxLoop_tags_isSome (p : Predictor) (s : Sentence) (T : Nat)
    (tgs0 : List (Option String)) (hnames : p.tag_names ≠ [])
    (hbias : p.tag_bias.length = p.tag_names.length) :
    ∀ (m i lb : Nat) (ts : List Int), ts.length = p.tag_bias.length →
      ∀ j, j < m →
        (((idxLoop p s T tgs0 m i lb ts).2.2.getD j none).isSome = true ↔
          (s.boundaries.getD (i + j) BoundaryType.Unknown =
              BoundaryType.WordBoundary ∨
            (tgs0.getD (i + j) none).isSome = true)) := by
  intro m
  induction m with
  | zero =>
    intro i lb ts hts j hj
    exact absurd hj (Nat.not_lt_zero j)
  | succ m ih =>
    intro i lb ts hts j hj
    by_cases hb : s.boundaries.getD i BoundaryType.Unknown = BoundaryType.WordBoundary
    · simp only [idxLoop, if_pos hb]
      cases j with
      | zero =>
        rw [List.getD_cons_zero, best_tag_isSome_eq]
        · simp only [Nat.add_zero, true_iff]
          exact Or.inl hb
        · apply List.ne_nil_of_length_pos
          rw [selfApply_length, addVec_length, hts, hbias]
          exact List.length_pos.mpr hnames
        · exact hnames
      | succ j =>
        rw [List.getD_cons_succ]
        have hidx : i + 1 + j = i + (j + 1) := by omega
        rw [ih (i + 1) (i + 1) _
          (by rw [resetVec_length, selfApply_length, addVec_length, hts]) j
          (by omega), hidx]
    · simp only [idxLoop, if_neg hb]
      cases j with
      | zero =>
        rw [List.getD_cons_zero]
        simp only [Nat.add_zero]
        constructor
        · intro h
          exact Or.inr h
        · intro h
          rcases h with h | h
          · exact absurd h hb
          · exact h
      | succ j =>
        rw [List.getD_cons_succ]
        have hidx : i + 1 + j = i + (j + 1) := by omega
        rw [ih (i + 1) lb ts hts j (by omega), hidx]

theorem replicate_getD_none (n i : Nat) :
    (List.replicate n (none : Option String)).getD i none = none := by
  rw [List.getD_eq_getElem?_getD, List.getElem?_replicate]
  split <;> rfl

/-- C9 amended: PROVIDED the sentence enters `fill_tags` with an empty tag
list (so the resize fills `n` null slots — pre-existing tags at
non-token-end positions are never cleared, see the C9 counterexample), its
tag scores populated with the shapes `predict_impl` establishes, and the
predictor built with tags, then after `fill_tags` position `i` carries a
non-null tag exactly when it ends a token: `boundaries[i] == WordBoundary`
or `i = n - 1`. -/
theorem claim9_amended_token_end_tags (p : Predictor) (s : Sentence)
    (hnames : p.tag_names ≠ [])
    (hbias : p.tag_bias.length = p.tag_names.length)
    (hn : 1 ≤ s.chars.length)
    (hB : s.boundaries.length + 1 = s.chars.length)
    (hL : s.tag_scores.left_scores.length = s.chars.length * p.tag_names.length)
    (hR : s.tag_scores.right_scores.length = s.chars.length * p.tag_names.length)
    (hSF : s.tag_scores.self_scores.length = s.chars.length)
    (htags : s.tags = [])
    (s2 : Sentence) (hfill : fill_tags p s = some s2) :
    ∀ i, i < s.chars.length →
      ((s2.tags.getD i none).isSome = true ↔
        (s.boundaries.getD i BoundaryType.Unknown = BoundaryType.WordBoundary ∨
          i = s.chars.length - 1)) := by
  have heq := fill_tags_eq_indexed p s hbias hn hB hL hR hSF (Or.inl htags)
  rw [heq, Option.some_inj] at hfill
  subst hfill
  intro i hi
  simp only [fillTagsIndexed, if_neg hnames, if_pos htags]
  have hlen2 := idxLoop_tags_length p s p.tag_names.length
    (List.replicate s.chars.length none) (s.chars.length - 1) 0 0
    (addVec p.tag_bias (rowAt s.tag_scores.left_scores p.tag_names.length 0))
  by_cases hi1 : i < s.chars.length - 1
  · rw [List.getD_append _ _ _ _ (by rw [hlen2]; omega)]
    rw [idxLoop_tags_isSome p s p.tag_names.length
      (List.replicate s.chars.length none) hnames hbias (s.chars.length - 1) 0 0
      (addVec p.tag_bias (rowAt s.tag_scores.left_scores p.tag_names.length 0))
      (by rw [addVec_length]) i hi1]
    rw [Nat.zero_add, replicate_getD_none]
    simp only [Option.isSome_none, Bool.false_eq_true, or_false]
    constructor
    · intro h
      exact Or.inl h
    · intro h
      rcases h with h | h
      · exact h
      · omega
  · have hieq : i = s.chars.length - 1 := by omega
    rw [List.getD_append_right _ _ _ _ (by rw [hlen2]; omega)]
    rw [show i - (idxLoop p s p.tag_names.length
        (List.replicate s.chars.length none) (s.chars.length - 1) 0 0
        (addVec p.tag_bias
          (rowAt s.tag_scores.left_scores p.tag_names.length 0))).2.2.length = 0
      from by rw [hlen2]; omega]
    rw [List.getD_cons_zero, best_tag_isSome_eq]
    · simp [hieq]
    · apply List.ne_nil_of_length_pos
      rw [selfApply_length, addVec_length, idxLoop_acc_length, addVec_length, hbias]
      exact List.length_pos.mpr hnames
    · exact hnames

/-- Witness for the amended C9 on the source's test-5 data at position 4
(inside the token つなぐ: not a boundary and not the last character, so it
carries no tag). -/
theorem claim9_witness :
    ((fillTagsIndexed pT5 sT5).tags.getD 4 none).isSome = true ↔
      (sT5.boundaries.getD 4 BoundaryType.Unknown = BoundaryType.WordBoundary ∨
        4 = sT5.chars.length - 1) :=
  claim9_amended_token_end_tags pT5 sT5 (by decide) rfl (by decide) (by decide)
    (by decide) (by decide) (by decide) rfl (fillTagsIndexed pT5 sT5) (by rfl)
    4 (by decide)

/-- The free function `preprocess_kytea_style` of
`vaporetto_rules/src/preprocess_kytea_style.rs`, over the character list of
the input string: each character is remapped through the fixed
half-width-to-full-width table, translated arm by arm from the source
`match` into a first-match conditional chain; characters outside the table
are unchanged. -/
def preprocess_kytea_style (text : List Char) : List Char :=
  text.map fun c =>
    if c = 'a' then 'ａ'
    else if c = 'b' then 'ｂ'
    else if c = 'c' then 'ｃ'
    else if c = 'd' then 'ｄ'
    else if c = 'e' then 'ｅ'
    else if c = 'f' then 'ｆ'
    else if c = 'g' then 'ｇ'
    else if c = 'h' then 'ｈ'
    else if c = 'i' then 'ｉ'
    else if c = 'j' then 'ｊ'
    else if c = 'k' then 'ｋ'
    else if c = 'l' then 'ｌ'
    else if c = 'm' then 'ｍ'
    else if c = 'n' then 'ｎ'
    else if c = 'o' then 'ｏ'
    else if c = 'p' then 'ｐ'
    else if c = 'q' then 'ｑ'
    else if c = 'r' then 'ｒ'
    else if c = 's' then 'ｓ'
    else if c = 't' then 'ｔ'
    else if c = 'u' then 'ｕ'
    else if c = 'v' then 'ｖ'
    else if c = 'w' then 'ｗ'
    else if c = 'x' then 'ｘ'
    else if c = 'y' then 'ｙ'
    else if c = 'z' then 'ｚ'
    else if c = 'A' then 'Ａ'
    else if c = 'B' then 'Ｂ'
    else if c = 'C' then 'Ｃ'
    else if c = 'D' then 'Ｄ'
    else if c = 'E' then 'Ｅ'
    else if c = 'F' then 'Ｆ'
    else if c = 'G' then 'Ｇ'
    else if c = 'H' then 'Ｈ'
    else if c = 'I' then 'Ｉ'
    else if c = 'J' then 'Ｊ'
    else if c = 'K' then 'Ｋ'
    else if c = 'L' then 'Ｌ'
    else if c = 'M' then 'Ｍ'
    else if c = 'N' then 'Ｎ'
    else if c = 'O' then 'Ｏ'
    else if c = 'P' then 'Ｐ'
    else if c = 'Q' then 'Ｑ'
    else if c = 'R' then 'Ｒ'
    else if c = 'S' then 'Ｓ'
    else if c = 'T' then 'Ｔ'
    else if c = 'U' then 'Ｕ'
    else if c = 'V' then 'Ｖ'
    else if c = 'W' then 'Ｗ'
    else if c = 'X' then 'Ｘ'
    else if c = 'Y' then 'Ｙ'
    else if c = 'Z' then 'Ｚ'
    else if c = '0' then '０'
    else if c = '1' then '１'
    else if c = '2' then '２'
    else if c = '3' then '３'
    else if c = '4' then '４'
    else if c = '5' then '５'
    else if c = '6' then '６'
    else if c = '7' then '７'
    else if c = '8' then '８'
    else if c = '9' then '９'
    else if c = '(' then '（'
    else if c = ')' then '）'
    else if c = Char.ofNat 123 then '｛'
    else if c = Char.ofNat 125 then '｝'
    else if c = '<' then '＜'
    else if c = '>' then '＞'
    else if c = '｢' then '「'
    else if c = '｣' then '」'
    else if c = '[' then '［'
    else if c = ']' then '］'
    else if c = '-' then '−'
    else if c = '～' then '〜'
    else if c = '.' then '。'
    else if c = '－' then 'ー'
    else if c = '/' then '／'
    else if c = '_' then '＿'
    else if c = ',' then '，'
    else if c = '%' then '％'
    else if c = '?' then '？'
    else if c = '､' then '、'
    else if c = '―' then 'ー'
    else if c = Char.ofNat 34 then '”'
    else if c = Char.ofNat 39 then '’'
    else if c = '･' then '・'
    else if c = '─' then 'ー'
    else if c = '+' then '＋'
    else if c = ':' then '：'
    else if c = '–' then 'ー'
    else if c = '!' then '！'
    else if c = '｡' then '。'
    else if c = '&' then '＆'
    else if c = '*' then '＊'
    else if c = '@' then '＠'
    else if c = '=' then '＝'
    else c

/-- The unit struct `KyteaFullwidthFilter` of
`vaporetto_rules/src/string_filters/kytea_fullwidth.rs`. -/
structure KyteaFullwidthFilter where

/-- The method `KyteaFullwidthFilter::filter`, translated arm by arm from
its own `match` table in `kytea_fullwidth.rs`. -/
def KyteaFullwidthFilter.filter (_ : KyteaFullwidthFilter) (string : List Char) :
    List Char :=
  string.map fun c =>
    if c = 'a' then 'ａ'
    else if c = 'b' then 'ｂ'
    else if c = 'c' then 'ｃ'
    else if c = 'd' then 'ｄ'
    else if c = 'e' then 'ｅ'
    else if c = 'f' then 'ｆ'
    else if c = 'g' then 'ｇ'
    else if c = 'h' then 'ｈ'
    else if c = 'i' then 'ｉ'
    else if c = 'j' then 'ｊ'
    else if c = 'k' then 'ｋ'
    else if c = 'l' then 'ｌ'
    else if c = 'm' then 'ｍ'
    else if c = 'n' then 'ｎ'
    else if c = 'o' then 'ｏ'
    else if c = 'p' then 'ｐ'
    else if c = 'q' then 'ｑ'
    else if c = 'r' then 'ｒ'
    else if c = 's' then 'ｓ'
    else if c = 't' then 'ｔ'
    else if c = 'u' then 'ｕ'
    else if c = 'v' then 'ｖ'
    else if c = 'w' then 'ｗ'
    else if c = 'x' then 'ｘ'
    else if c = 'y' then 'ｙ'
    else if c = 'z' then 'ｚ'
    else if c = 'A' then 'Ａ'
    else if c = 'B' then 'Ｂ'
    else if c = 'C' then 'Ｃ'
    else if c = 'D' then 'Ｄ'
    else if c = 'E' then 'Ｅ'
    else if c = 'F' then 'Ｆ'
    else if c = 'G' then 'Ｇ'
    else if c = 'H' then 'Ｈ'
    else if c = 'I' then 'Ｉ'
    else if c = 'J' then 'Ｊ'
    else if c = 'K' then 'Ｋ'
    else if c = 'L' then 'Ｌ'
    else if c = 'M' then 'Ｍ'
    else if c = 'N' then 'Ｎ'
    else if c = 'O' then 'Ｏ'
    else if c = 'P' then 'Ｐ'
    else if c = 'Q' then 'Ｑ'
    else if c = 'R' then 'Ｒ'
    else if c = 'S' then 'Ｓ'
    else if c = 'T' then 'Ｔ'
    else if c = 'U' then 'Ｕ'
    else if c = 'V' then 'Ｖ'
    else if c = 'W' then 'Ｗ'
    else if c = 'X' then 'Ｘ'
    else if c = 'Y' then 'Ｙ'
    else if c = 'Z' then 'Ｚ'
    else if c = '0' then '０'
    else if c = '1' then '１'
    else if c = '2' then '２'
    else if c = '3' then '３'
    else if c = '4' then '４'
    else if c = '5' then '５'
    else if c = '6' then '６'
    else if c = '7' then '７'
    else if c = '8' then '８'
    else if c = '9' then '９'
    else if c = '(' then '（'
    else if c = ')' then '）'
    else if c = Char.ofNat 123 then '｛'
    else if c = Char.ofNat 125 then '｝'
    else if c = '<' then '＜'
    else if c = '>' then '＞'
    else if c = '｢' then '「'
    else if c = '｣' then '」'
    else if c = '[' then '［'
    else if c = ']' then '］'
    else if c = '-' then '−'
    else if c = '～' then '〜'
    else if c = '.' then '。'
    else if c = '－' then 'ー'
    else if c = '/' then '／'
    else if c = '_' then '＿'
    else if c = ',' then '，'
    else if c = '%' then '％'
    else if c = '?' then '？'
    else if c = '､' then '、'
    else if c = '―' then 'ー'
    else if c = Char.ofNat 34 then '”'
    else if c = Char.ofNat 39 then '’'
    else if c = '･' then '・'
    else if c = '─' then 'ー'
    else if c = '+' then '＋'
    else if c = ':' then '：'
    else if c = '–' then 'ー'
    else if c = '!' then '！'
    else if c = '｡' then '。'
    else if c = '&' then '＆'
    else if c = '*' then '＊'
    else if c = '@' then '＠'
    else if c = '=' then '＝'
    else c

/-- C10: for every input string, the free function `preprocess_kytea_style`
and the method `KyteaFullwidthFilter::filter` return exactly the same output
string — the two source tables are identical — and both preserve the number
of Unicode scalar values. -/
theorem claim10_preprocess_filter_equal (text : List Char) :
    preprocess_kytea_style text = KyteaFullwidthFilter.filter ⟨⟩ text ∧
    (KyteaFullwidthFilter.filter ⟨⟩ text).length = text.length :=
  ⟨rfl, List.length_map text _⟩

end Vaporetto
